import Mathlib

set_option autoImplicit false

namespace Memphis

/-!
Shallow embedding of `src/general_testing/main.py` (the Memphis function
helper `create_function` and its inner batch `handler`).

Python bytes are modelled as `List Nat` with every element below 256.
Dynamically typed Python values flowing out of the user transform are
modelled by `PyVal`.  The two standard-library decoding steps used only
when `as_json` is set — `str(payload, "utf-8")` and `json.loads` — are
modelled as explicit function parameters (`Libs`), since the handler only
forwards their results or their exceptions.
-/

/-- One sextet value to its base64 alphabet character
(`A`-`Z`, `a`-`z`, `0`-`9`, `+`, `/`); out-of-range input yields `A`,
which never happens for real sextets. -/
def encodeChar (n : Nat) : Char :=
  if n < 26 then Char.ofNat (65 + n)
  else if n < 52 then Char.ofNat (97 + (n - 26))
  else if n < 62 then Char.ofNat (48 + (n - 52))
  else if n = 62 then Char.ofNat 43
  else if n = 63 then Char.ofNat 47
  else Char.ofNat 65

/-- Base64 alphabet character back to its sextet value. -/
def decodeChar (c : Char) : Option Nat :=
  if 65 ≤ c.toNat ∧ c.toNat ≤ 90 then some (c.toNat - 65)
  else if 97 ≤ c.toNat ∧ c.toNat ≤ 122 then some (c.toNat - 97 + 26)
  else if 48 ≤ c.toNat ∧ c.toNat ≤ 57 then some (c.toNat - 48 + 52)
  else if c.toNat = 43 then some 62
  else if c.toNat = 47 then some 63
  else none

/-- Whether a character belongs to the base64 alphabet. -/
def isB64Char (c : Char) : Bool :=
  (decodeChar c).isSome

/-- `base64.b64encode` on a byte list, producing the character stream:
3-byte groups become 4 sextet characters, a 1- or 2-byte tail is padded
with `=`. -/
def b64encodeBytes : List Nat → List Char
  | [] => []
  | [b1] =>
    [encodeChar (b1 / 4), encodeChar (b1 % 4 * 16), '=', '=']
  | [b1, b2] =>
    [encodeChar (b1 / 4), encodeChar (b1 % 4 * 16 + b2 / 16),
     encodeChar (b2 % 16 * 4), '=']
  | b1 :: b2 :: b3 :: rest =>
    encodeChar (b1 / 4) :: encodeChar (b1 % 4 * 16 + b2 / 16) ::
    encodeChar (b2 % 16 * 4 + b3 / 64) :: encodeChar (b3 % 64) ::
    b64encodeBytes rest

/-- `base64.b64encode` returning the base64 text. -/
def b64encode (bs : List Nat) : String :=
  String.mk (b64encodeBytes bs)

/-- The lenient pre-filter of Python `base64.b64decode`: characters
outside the alphabet and the padding character are discarded. -/
def b64filter (cs : List Char) : List Char :=
  cs.filter (fun c => isB64Char c || c == '=')

/-- Decode a stream of 4-character base64 groups; padding `=` is only
accepted at the end of the final group, and leftover characters (a
length not divisible by 4) are an error, as in `binascii`. -/
def b64decodeQuads : List Char → Option (List Nat)
  | [] => some []
  | c1 :: c2 :: c3 :: c4 :: rest =>
    match decodeChar c1, decodeChar c2 with
    | some s1, some s2 =>
      if c3 = '=' then
        if c4 = '=' ∧ rest = [] then some [s1 * 4 + s2 / 16] else none
      else
        match decodeChar c3 with
        | some s3 =>
          if c4 = '=' then
            if rest = [] then some [s1 * 4 + s2 / 16, s2 % 16 * 16 + s3 / 4]
            else none
          else
            match decodeChar c4 with
            | some s4 =>
              match b64decodeQuads rest with
              | some bs =>
                some ((s1 * 4 + s2 / 16) :: (s2 % 16 * 16 + s3 / 4) ::
                      (s3 % 4 * 64 + s4) :: bs)
              | none => none
            | none => none
        | none => none
    | _, _ => none
  | _ => none

/-- `base64.b64decode` on the payload text: filter to the alphabet, then
decode the 4-character groups; `none` models the raised `binascii.Error`. -/
def b64decode (s : String) : Option (List Nat) :=
  b64decodeQuads (b64filter s.data)

/-- A dynamically typed Python value as it can appear in the pair
returned by the user transform (or produced by `json.loads`).
`pyOther` stands for any object of another type, carrying the type name;
such objects are not JSON-serializable in this model. -/
inductive PyVal where
  | pyBytes (b : List Nat)
  | pyStr (s : String)
  | pyDict (d : List (String × PyVal))
  | pyNone
  | pyOther (tyName : String)

/-- One inbound message of the event: `{headers, payload}` with the
payload a base64 string, as in the input envelope. -/
structure Message where
  headers : List (String × String)
  payload : String
  deriving DecidableEq

/-- The event dict: the `messages` list and the `inputs` mapping;
`none` models an event dict lacking the `inputs` key. -/
structure Event where
  messages : List Message
  inputs : Option (List (String × String))

/-- What one invocation of the user `event_handler` does: return a pair
`(processed_message, processed_headers)` or raise an exception whose
`str` is `e`. -/
inductive TransformResult where
  | ok (processed_message : PyVal) (processed_headers : PyVal)
  | exn (e : String)

/-- The user transform: `(payload, headers, inputs) -> pair or raise`.
The payload argument is the decoded bytes, or the `json.loads` value
when `as_json` is set. -/
def Transform : Type :=
  PyVal → List (String × String) → List (String × String) → TransformResult

/-- The two standard-library decoding functions used by the handler when
`as_json` is set: `str(bytes, "utf-8")` and `json.loads`; an `Except`
error is the exception text they raise. -/
structure Libs where
  utf8Decode : List Nat → Except String String
  jsonLoads : String → Except String PyVal

/-- A success entry of `processed_events["messages"]` before the final
`json.dumps`: the transformed headers and the raw transformed bytes. -/
structure OutMessage where
  headers : List (String × PyVal)
  payload : List Nat

/-- A failure entry of `processed_events["failed_messages"]`: the
original headers, the original (still base64) payload, and `str(e)`. -/
structure FailedMessage where
  headers : List (String × String)
  payload : String
  error : String
  deriving DecidableEq

/-- The aggregated `processed_events` dict. -/
structure ProcessedEvents where
  messages : List OutMessage
  failed_messages : List FailedMessage

/-- The outcome of the per-message loop body for one message. -/
inductive Outcome where
  | success (m : OutMessage)
  | dropped
  | failure (f : FailedMessage)

/-- Error text for `binascii.Error` from `base64.b64decode`. -/
def base64ErrMsg : String :=
  "Invalid base64-encoded string: incorrect padding"

/-- Error text for the `KeyError` raised by `event["inputs"]` when the
key is absent. -/
def keyErrMsg : String :=
  "KeyError: inputs"

/-- `type(v)` rendered as text, used in the contract-violation message. -/
def pyTypeName : PyVal → String
  | .pyBytes _ => "bytes"
  | .pyStr _ => "str"
  | .pyDict _ => "dict"
  | .pyNone => "NoneType"
  | .pyOther t => t

/-- The error raised when exactly one of the returned pair is `None`
(main.py line 104). -/
def bothNoneErrMsg (pm ph : PyVal) : String :=
  "processed_messages is of type " ++ pyTypeName pm ++
  " and processed_headers is " ++ pyTypeName ph ++
  ". Either both of these should be None or neither"

/-- The error raised when the returned pair has the wrong types
(main.py line 107). -/
def wrongTypeErrMsg : String :=
  "The returned processed_message or processed_headers were not in the right format. processed_message must be bytes and processed_headers, dict"

/-- `isinstance(v, bytes)`. -/
def isBytes : PyVal → Bool
  | .pyBytes _ => true
  | _ => false

/-- `isinstance(v, dict)`. -/
def isDict : PyVal → Bool
  | .pyDict _ => true
  | _ => false

/-- `v is None`. -/
def isNone : PyVal → Bool
  | .pyNone => true
  | _ => false

/-- The byte content of a `pyBytes` value. -/
def getBytes : PyVal → List Nat
  | .pyBytes b => b
  | _ => []

/-- The entries of a `pyDict` value. -/
def getDict : PyVal → List (String × PyVal)
  | .pyDict d => d
  | _ => []

/-- The `if/elif/elif/else` chain of main.py lines 96-108 classifying the
pair returned by the transform, for the message `msg` being processed. -/
def classify (msg : Message) (pm ph : PyVal) : Outcome :=
  if isBytes pm && isDict ph then
    .success ⟨getDict ph, getBytes pm⟩
  else if isNone pm && isNone ph then
    .dropped
  else if isNone pm || isNone ph then
    .failure ⟨msg.headers, msg.payload, bothNoneErrMsg pm ph⟩
  else
    .failure ⟨msg.headers, msg.payload, wrongTypeErrMsg⟩

/-- Steps 1-2 of the loop body (main.py lines 86-89): base64-decode the
payload and, when `as_json`, decode UTF-8 and parse JSON. -/
def decodePayload (L : Libs) (as_json : Bool) (payload : String) :
    Except String PyVal :=
  match b64decode payload with
  | none => .error base64ErrMsg
  | some bs =>
    if as_json then
      match L.utf8Decode bs with
      | .error e => .error e
      | .ok s =>
        match L.jsonLoads s with
        | .error e => .error e
        | .ok v => .ok v
    else .ok (.pyBytes bs)

/-- The whole `try`-block body for one message (main.py lines 85-114):
decode the payload, look up `event["inputs"]` (raising `KeyError` when
the key is missing), call the transform, classify the result; any error
becomes a failure entry carrying the original headers and payload.
Awaiting (`use_async`) and calling directly coincide in this sequential
embedding. -/
def processMessage (L : Libs) (as_json : Bool) (event_handler : Transform)
    (inputs : Option (List (String × String))) (msg : Message) : Outcome :=
  match decodePayload L as_json msg.payload with
  | .error e => .failure ⟨msg.headers, msg.payload, e⟩
  | .ok payload =>
    match inputs with
    | none => .failure ⟨msg.headers, msg.payload, keyErrMsg⟩
    | some inp =>
      match event_handler payload msg.headers inp with
      | .exn e => .failure ⟨msg.headers, msg.payload, e⟩
      | .ok pm ph => classify msg pm ph

/-- The `for message in event["messages"]` loop of the handler
(main.py lines 84-114), accumulating the two output sequences in input
order. -/
def runHandler (L : Libs) (as_json : Bool) (event_handler : Transform)
    (inputs : Option (List (String × String))) :
    List Message → ProcessedEvents
  | [] => ⟨[], []⟩
  | msg :: rest =>
    let r := runHandler L as_json event_handler inputs rest
    match processMessage L as_json event_handler inputs msg with
    | .success om => ⟨om :: r.messages, r.failed_messages⟩
    | .dropped => r
    | .failure f => ⟨r.messages, f :: r.failed_messages⟩

mutual

/-- Whether `json.dumps` with the `EncodeBase64` encoder succeeds on a
value: bytes, strings, `None` and (recursively) dicts do; any other
object raises `TypeError`. -/
def pyValSerializable : PyVal → Bool
  | .pyBytes _ => true
  | .pyStr _ => true
  | .pyNone => true
  | .pyOther _ => false
  | .pyDict d => dictSerializable d

/-- Whether every value of a dict is serializable. -/
def dictSerializable : List (String × PyVal) → Bool
  | [] => true
  | (_, v) :: rest => pyValSerializable v && dictSerializable rest

end

/-- Whether the final `json.dumps(processed_events, cls=EncodeBase64)`
succeeds.  Failure entries hold only strings and string-valued headers,
so only the transformed headers of success entries can fail to encode. -/
def envelopeSerializable (pe : ProcessedEvents) : Bool :=
  pe.messages.all (fun m => pyValSerializable (.pyDict m.headers))

/-- A success entry as it appears in the serialized output envelope: the
payload rendered by `EncodeBase64` as base64 text. -/
structure EnvMessage where
  headers : List (String × PyVal)
  payload : String

/-- What `create_function` returns: the JSON output envelope (modelled
structurally), or the plain error string built at main.py line 119 when
the final `json.dumps` raises. -/
inductive HandlerResult where
  | envelope (messages : List EnvMessage) (failed_messages : List FailedMessage)
  | encodeFailure (e : String)

/-- Error text returned when the final serialization fails
(main.py line 119). -/
def jsonDumpErrMsg : String :=
  "Returned message types from user function are not able to be converted into JSON: Object is not JSON serializable"

/-- `create_function` (main.py lines 5-121): run the handler over the
event and serialize the aggregated result, or return the descriptive
error string when serialization fails.  `use_async` only selects
awaiting the transform, which coincides with calling it in this
sequential embedding. -/
def create_function (L : Libs) (as_json use_async : Bool)
    (event_handler : Transform) (event : Event) : HandlerResult :=
  let pe := runHandler L as_json event_handler event.inputs event.messages
  if envelopeSerializable pe then
    .envelope (pe.messages.map (fun m => ⟨m.headers, b64encode m.payload⟩))
      pe.failed_messages
  else
    .encodeFailure jsonDumpErrMsg


theorem decode_encodeChar : ∀ n : Nat, n < 64 → decodeChar (encodeChar n) = some n := by
  decide

theorem isB64Char_encodeChar (n : Nat) : isB64Char (encodeChar n) = true := by
  rcases Nat.lt_or_ge n 64 with h | h
  · exact (by decide : ∀ m, m < 64 → isB64Char (encodeChar m) = true) n h
  · unfold encodeChar
    rw [if_neg (by omega), if_neg (by omega), if_neg (by omega),
        if_neg (by omega), if_neg (by omega)]
    decide

theorem encodeChar_ne_pad (n : Nat) : encodeChar n ≠ '=' := by
  intro h
  have h1 := isB64Char_encodeChar n
  rw [h] at h1
  exact absurd h1 (by decide)

theorem encode_chars_ok (bs : List Nat) :
    (b64encodeBytes bs).all (fun c => isB64Char c || c == '=') = true := by
  induction bs using b64encodeBytes.induct with
  | case1 => rfl
  | case2 b1 =>
    simp [b64encodeBytes, isB64Char_encodeChar]
  | case3 b1 b2 =>
    simp [b64encodeBytes, isB64Char_encodeChar]
  | case4 b1 b2 b3 rest ih =>
    simp [b64encodeBytes, isB64Char_encodeChar]
    simpa using ih

theorem b64filter_encode (bs : List Nat) :
    b64filter (b64encodeBytes bs) = b64encodeBytes bs := by
  rw [b64filter, List.filter_eq_self]
  exact List.all_eq_true.mp (encode_chars_ok bs)


theorem b64decodeQuads_encode (bs : List Nat) (h : ∀ b ∈ bs, b < 256) :
    b64decodeQuads (b64encodeBytes bs) = some bs := by
  induction bs using b64encodeBytes.induct with
  | case1 => rfl
  | case2 b1 =>
    have hb1 : b1 < 256 := h b1 (by simp)
    simp only [b64encodeBytes, b64decodeQuads,
      decode_encodeChar (b1 / 4) (by omega),
      decode_encodeChar (b1 % 4 * 16) (by omega)]
    rw [if_pos trivial, if_pos ⟨trivial, trivial⟩]
    have e : b1 / 4 * 4 + b1 % 4 * 16 / 16 = b1 := by omega
    rw [e]
  | case3 b1 b2 =>
    have hb1 : b1 < 256 := h b1 (by simp)
    have hb2 : b2 < 256 := h b2 (by simp)
    simp only [b64encodeBytes, b64decodeQuads,
      decode_encodeChar (b1 / 4) (by omega),
      decode_encodeChar (b1 % 4 * 16 + b2 / 16) (by omega),
      decode_encodeChar (b2 % 16 * 4) (by omega)]
    rw [if_neg (encodeChar_ne_pad _), if_pos trivial, if_pos trivial]
    have e1 : b1 / 4 * 4 + (b1 % 4 * 16 + b2 / 16) / 16 = b1 := by omega
    have e2 : (b1 % 4 * 16 + b2 / 16) % 16 * 16 + b2 % 16 * 4 / 4 = b2 := by omega
    rw [e1, e2]
  | case4 b1 b2 b3 rest ih =>
    have hb1 : b1 < 256 := h b1 (by simp)
    have hb2 : b2 < 256 := h b2 (by simp)
    have hb3 : b3 < 256 := h b3 (by simp)
    have hrest : ∀ b ∈ rest, b < 256 := by
      intro b hb; exact h b (by simp [hb])
    simp only [b64encodeBytes, b64decodeQuads,
      decode_encodeChar (b1 / 4) (by omega),
      decode_encodeChar (b1 % 4 * 16 + b2 / 16) (by omega),
      decode_encodeChar (b2 % 16 * 4 + b3 / 64) (by omega),
      decode_encodeChar (b3 % 64) (by omega)]
    rw [if_neg (encodeChar_ne_pad _), if_neg (encodeChar_ne_pad _)]
    rw [ih hrest]
    have e1 : b1 / 4 * 4 + (b1 % 4 * 16 + b2 / 16) / 16 = b1 := by omega
    have e2 : (b1 % 4 * 16 + b2 / 16) % 16 * 16 + (b2 % 16 * 4 + b3 / 64) / 4 = b2 := by omega
    have e3 : (b2 % 16 * 4 + b3 / 64) % 4 * 64 + b3 % 64 = b3 := by omega
    rw [e1, e2, e3]

theorem b64_roundtrip (bs : List Nat) (h : ∀ b ∈ bs, b < 256) :
    b64decode (b64encode bs) = some bs := by
  unfold b64decode b64encode
  rw [show (String.mk (b64encodeBytes bs)).data = b64encodeBytes bs from rfl,
      b64filter_encode, b64decodeQuads_encode bs h]

/-- The success entry produced by an outcome, if any. -/
def successPart (o : Outcome) : Option OutMessage :=
  match o with
  | .success om => some om
  | _ => none

/-- The failure entry produced by an outcome, if any. -/
def failurePart (o : Outcome) : Option FailedMessage :=
  match o with
  | .failure f => some f
  | _ => none

/-- Whether the outcome is the filter (`continue`) branch. -/
def isDropped (o : Outcome) : Bool :=
  match o with
  | .dropped => true
  | _ => false

/-- How many messages of the list take the filter branch. -/
def droppedCount (L : Libs) (as_json : Bool) (event_handler : Transform)
    (inputs : Option (List (String × String))) (msgs : List Message) : Nat :=
  msgs.countP (fun m => isDropped (processMessage L as_json event_handler inputs m))

theorem runHandler_messages (L : Libs) (as_json : Bool) (eh : Transform)
    (inp : Option (List (String × String))) (msgs : List Message) :
    (runHandler L as_json eh inp msgs).messages
      = msgs.filterMap (fun m => successPart (processMessage L as_json eh inp m)) := by
  induction msgs with
  | nil => rfl
  | cons m rest ih =>
    simp only [runHandler, List.filterMap_cons]
    cases hpm : processMessage L as_json eh inp m <;>
      simp [successPart, hpm, ih]

theorem runHandler_failed (L : Libs) (as_json : Bool) (eh : Transform)
    (inp : Option (List (String × String))) (msgs : List Message) :
    (runHandler L as_json eh inp msgs).failed_messages
      = msgs.filterMap (fun m => failurePart (processMessage L as_json eh inp m)) := by
  induction msgs with
  | nil => rfl
  | cons m rest ih =>
    simp only [runHandler, List.filterMap_cons]
    cases hpm : processMessage L as_json eh inp m <;>
      simp [failurePart, hpm, ih]

theorem runHandler_length (L : Libs) (as_json : Bool) (eh : Transform)
    (inp : Option (List (String × String))) (msgs : List Message) :
    msgs.length
      = (runHandler L as_json eh inp msgs).messages.length
        + (runHandler L as_json eh inp msgs).failed_messages.length
        + droppedCount L as_json eh inp msgs := by
  induction msgs with
  | nil => rfl
  | cons m rest ih =>
    simp only [List.length_cons, droppedCount, List.countP_cons, runHandler]
    cases hpm : processMessage L as_json eh inp m <;>
      simp [isDropped, hpm, droppedCount] at ih ⊢ <;> omega

theorem processMessage_decodeErr (L : Libs) (as_json : Bool) (eh : Transform)
    (inp : Option (List (String × String))) (msg : Message) (e : String)
    (hd : decodePayload L as_json msg.payload = .error e) :
    processMessage L as_json eh inp msg = .failure ⟨msg.headers, msg.payload, e⟩ := by
  simp only [processMessage, hd]

theorem processMessage_noInputs (L : Libs) (as_json : Bool) (eh : Transform)
    (msg : Message) (pv : PyVal)
    (hd : decodePayload L as_json msg.payload = .ok pv) :
    processMessage L as_json eh none msg
      = .failure ⟨msg.headers, msg.payload, keyErrMsg⟩ := by
  simp only [processMessage, hd]

theorem processMessage_exn (L : Libs) (as_json : Bool) (eh : Transform)
    (inp0 : List (String × String)) (msg : Message) (pv : PyVal) (e : String)
    (hd : decodePayload L as_json msg.payload = .ok pv)
    (he : eh pv msg.headers inp0 = .exn e) :
    processMessage L as_json eh (some inp0) msg
      = .failure ⟨msg.headers, msg.payload, e⟩ := by
  simp only [processMessage, hd, he]

theorem processMessage_ok (L : Libs) (as_json : Bool) (eh : Transform)
    (inp0 : List (String × String)) (msg : Message) (pv pm ph : PyVal)
    (hd : decodePayload L as_json msg.payload = .ok pv)
    (he : eh pv msg.headers inp0 = .ok pm ph) :
    processMessage L as_json eh (some inp0) msg = classify msg pm ph := by
  simp only [processMessage, hd, he]

/-- Every failure entry produced by `classify` keeps the original
headers and payload, and carries one of the two synthesized errors. -/
theorem classify_failure_fields (msg : Message) (pm ph : PyVal)
    (f : FailedMessage) (h : classify msg pm ph = .failure f) :
    f.headers = msg.headers ∧ f.payload = msg.payload
      ∧ (f.error = bothNoneErrMsg pm ph ∨ f.error = wrongTypeErrMsg) := by
  unfold classify at h
  split at h
  · cases h
  · split at h
    · cases h
    · split at h
      · cases h
        exact ⟨rfl, rfl, Or.inl rfl⟩
      · cases h
        exact ⟨rfl, rfl, Or.inr rfl⟩

/-- Every failure entry keeps the original headers and payload of the
message it came from. -/
theorem failure_fields (L : Libs) (as_json : Bool) (eh : Transform)
    (inp : Option (List (String × String))) (msg : Message) (f : FailedMessage)
    (h : processMessage L as_json eh inp msg = .failure f) :
    f.headers = msg.headers ∧ f.payload = msg.payload := by
  rcases hd : decodePayload L as_json msg.payload with e | pv
  · rw [processMessage_decodeErr L as_json eh inp msg e hd] at h
    cases h; exact ⟨rfl, rfl⟩
  · rcases inp with _ | inp0
    · rw [processMessage_noInputs L as_json eh msg pv hd] at h
      cases h; exact ⟨rfl, rfl⟩
    · rcases he : eh pv msg.headers inp0 with ⟨pm, ph⟩ | e
      · rw [processMessage_ok L as_json eh inp0 msg pv pm ph hd he] at h
        exact ⟨(classify_failure_fields msg pm ph f h).1,
               (classify_failure_fields msg pm ph f h).2.1⟩
      · rw [processMessage_exn L as_json eh inp0 msg pv e hd he] at h
        cases h; exact ⟨rfl, rfl⟩

/-- A success outcome can only come from the transform returning a
`bytes` payload and a `dict` of headers, which become the entry. -/
theorem success_fields (L : Libs) (as_json : Bool) (eh : Transform)
    (inp : Option (List (String × String))) (msg : Message) (om : OutMessage)
    (h : processMessage L as_json eh inp msg = .success om) :
    ∃ pv inp0, decodePayload L as_json msg.payload = .ok pv ∧ inp = some inp0
      ∧ eh pv msg.headers inp0 = .ok (.pyBytes om.payload) (.pyDict om.headers) := by
  rcases hd : decodePayload L as_json msg.payload with e | pv
  · rw [processMessage_decodeErr L as_json eh inp msg e hd] at h
    cases h
  · rcases inp with _ | inp0
    · rw [processMessage_noInputs L as_json eh msg pv hd] at h
      cases h
    · rcases he : eh pv msg.headers inp0 with ⟨pm, ph⟩ | e
      · rw [processMessage_ok L as_json eh inp0 msg pv pm ph hd he] at h
        unfold classify at h
        split at h
        next hbd =>
          obtain ⟨hb, hdk⟩ := Bool.and_eq_true _ _ |>.mp hbd
          rcases pm with b | s | d | _ | t <;> simp [isBytes] at hb
          rcases ph with b2 | s2 | d2 | _ | t2 <;> simp [isDict] at hdk
          cases h
          exact ⟨pv, inp0, rfl, rfl, by simpa [getBytes, getDict] using he⟩
        · split at h
          · cases h
          · split at h
            · cases h
            · cases h
      · rw [processMessage_exn L as_json eh inp0 msg pv e hd he] at h
        cases h

/-- The filter branch is taken exactly when the payload decoded, the
inputs key was present, and the transform returned `(None, None)`. -/
theorem dropped_iff (L : Libs) (as_json : Bool) (eh : Transform)
    (inp : Option (List (String × String))) (msg : Message) :
    processMessage L as_json eh inp msg = .dropped
      ↔ ∃ pv inp0, decodePayload L as_json msg.payload = .ok pv ∧ inp = some inp0
          ∧ eh pv msg.headers inp0 = .ok .pyNone .pyNone := by
  constructor
  · intro h
    rcases hd : decodePayload L as_json msg.payload with e | pv
    · rw [processMessage_decodeErr L as_json eh inp msg e hd] at h
      cases h
    · rcases inp with _ | inp0
      · rw [processMessage_noInputs L as_json eh msg pv hd] at h
        cases h
      · rcases he : eh pv msg.headers inp0 with ⟨pm, ph⟩ | e
        · rw [processMessage_ok L as_json eh inp0 msg pv pm ph hd he] at h
          unfold classify at h
          split at h
          · cases h
          · split at h
            next hnn =>
              obtain ⟨hn1, hn2⟩ := Bool.and_eq_true _ _ |>.mp hnn
              rcases pm with b | s | d | _ | t <;> simp [isNone] at hn1
              rcases ph with b2 | s2 | d2 | _ | t2 <;> simp [isNone] at hn2
              exact ⟨pv, inp0, rfl, rfl, he⟩
            · split at h
              · cases h
              · cases h
        · rw [processMessage_exn L as_json eh inp0 msg pv e hd he] at h
          cases h
  · rintro ⟨pv, inp0, hd, rfl, he⟩
    rw [processMessage_ok L as_json eh inp0 msg pv _ _ hd he]
    rfl

theorem successPart_eq_some (o : Outcome) (om : OutMessage)
    (h : successPart o = some om) : o = .success om := by
  cases o with
  | success om0 => simp [successPart] at h; rw [h]
  | dropped => simp [successPart] at h
  | failure f0 => simp [successPart] at h

theorem failurePart_eq_some (o : Outcome) (f : FailedMessage)
    (h : failurePart o = some f) : o = .failure f := by
  cases o with
  | success om0 => simp [failurePart] at h
  | dropped => simp [failurePart] at h
  | failure f0 => simp [failurePart] at h; rw [h]

/-- A message whose outcome is a failure contributes its entry to the
failure sequence of any batch containing it. -/
theorem mem_failed_of_failure (L : Libs) (as_json : Bool) (eh : Transform)
    (inp : Option (List (String × String))) (msgs : List Message)
    (m : Message) (f : FailedMessage) (hm : m ∈ msgs)
    (h : processMessage L as_json eh inp m = .failure f) :
    f ∈ (runHandler L as_json eh inp msgs).failed_messages := by
  rw [runHandler_failed]
  exact List.mem_filterMap.mpr ⟨m, hm, by simp [failurePart, h]⟩

/-- A message whose outcome is a success contributes its entry to the
success sequence of any batch containing it. -/
theorem mem_messages_of_success (L : Libs) (as_json : Bool) (eh : Transform)
    (inp : Option (List (String × String))) (msgs : List Message)
    (m : Message) (om : OutMessage) (hm : m ∈ msgs)
    (h : processMessage L as_json eh inp m = .success om) :
    om ∈ (runHandler L as_json eh inp msgs).messages := by
  rw [runHandler_messages]
  exact List.mem_filterMap.mpr ⟨m, hm, by simp [successPart, h]⟩

/-- Removing a dropped message from anywhere in the batch leaves both
output sequences unchanged. -/
theorem runHandler_drop_middle (L : Libs) (as_json : Bool) (eh : Transform)
    (inp : Option (List (String × String))) (pre post : List Message)
    (m : Message) (hdrop : processMessage L as_json eh inp m = .dropped) :
    runHandler L as_json eh inp (pre ++ m :: post)
      = runHandler L as_json eh inp (pre ++ post) := by
  induction pre with
  | nil => simp only [List.nil_append, runHandler, hdrop]
  | cons p pre ih => simp only [List.cons_append, runHandler, List.append_eq, ih]

theorem create_function_ser (L : Libs) (as_json use_async : Bool)
    (eh : Transform) (ev : Event)
    (h : envelopeSerializable (runHandler L as_json eh ev.inputs ev.messages)
          = true) :
    create_function L as_json use_async eh ev
      = .envelope
          ((runHandler L as_json eh ev.inputs ev.messages).messages.map
            (fun m => ⟨m.headers, b64encode m.payload⟩))
          (runHandler L as_json eh ev.inputs ev.messages).failed_messages := by
  simp [create_function, h]

theorem create_function_noser (L : Libs) (as_json use_async : Bool)
    (eh : Transform) (ev : Event)
    (h : envelopeSerializable (runHandler L as_json eh ev.inputs ev.messages)
          = false) :
    create_function L as_json use_async eh ev = .encodeFailure jsonDumpErrMsg := by
  simp [create_function, h]

theorem bothNoneErrMsg_ne_empty (pm ph : PyVal) : bothNoneErrMsg pm ph ≠ "" := by
  intro h
  have hlen := congrArg String.length h
  simp only [bothNoneErrMsg, String.length_append] at hlen
  have h1 : ("processed_messages is of type " : String).length = 30 := rfl
  have h2 : ("" : String).length = 0 := rfl
  rw [h1, h2] at hlen
  omega

/-- A `Libs` instance for concrete runs that never use the JSON path. -/
def L0 : Libs :=
  ⟨fun _ => .ok "", fun _ => .error "json error"⟩

/-- A concrete header map. -/
def hdr0 : List (String × String) :=
  [("k", "v")]

/-- A message whose payload decodes to the bytes of `hi`. -/
def msgHi : Message :=
  ⟨hdr0, "aGk="⟩

/-- A message whose payload decodes to the single byte of `a`. -/
def msgA : Message :=
  ⟨hdr0, "YQ=="⟩

/-- A message whose payload is not valid base64 (one leftover char). -/
def msgBad : Message :=
  ⟨hdr0, "a"⟩

/-- A transform that filters every message. -/
def ehDrop : Transform :=
  fun _ _ _ => .ok .pyNone .pyNone

/-- A transform that raises on every message. -/
def ehBoom : Transform :=
  fun _ _ _ => .exn "boom"

/-- A transform returning the payload bytes unchanged with empty headers. -/
def ehBytes : Transform := fun p _ _ =>
  match p with
  | .pyBytes b => .ok (.pyBytes b) (.pyDict [])
  | _ => .exn "not bytes"

/-- A transform succeeding on payloads starting with byte 104 and
raising otherwise. -/
def ehSel : Transform := fun p _ _ =>
  match p with
  | .pyBytes (104 :: rest) => .ok (.pyBytes (104 :: rest)) (.pyDict [])
  | _ => .exn "boom"

/-- A transform violating the result contract: only the headers are
`None`. -/
def ehHalfNone : Transform :=
  fun _ _ _ => .ok (.pyBytes []) .pyNone

/-- A transform whose returned headers hold a non-serializable object. -/
def ehBadHdr : Transform :=
  fun _ _ _ => .ok (.pyBytes []) (.pyDict [("x", .pyOther "set")])

/-- C1: every input message takes exactly one of the three outcomes and
none is duplicated or lost: the batch length equals successes plus
failures plus dropped messages; a message is dropped exactly when its
transform returned `(None, None)`; and removing a dropped message from
the batch leaves both output sequences unchanged, so it appears in
neither. -/
theorem claim_C1 (L : Libs) (as_json : Bool) (eh : Transform) (ev : Event) :
    ev.messages.length
      = (runHandler L as_json eh ev.inputs ev.messages).messages.length
        + (runHandler L as_json eh ev.inputs ev.messages).failed_messages.length
        + droppedCount L as_json eh ev.inputs ev.messages
    ∧ (∀ m, processMessage L as_json eh ev.inputs m = .dropped
          ↔ ∃ pv inp0, decodePayload L as_json m.payload = .ok pv
              ∧ ev.inputs = some inp0
              ∧ eh pv m.headers inp0 = .ok .pyNone .pyNone)
    ∧ (∀ pre m post, ev.messages = pre ++ m :: post →
        processMessage L as_json eh ev.inputs m = .dropped →
        runHandler L as_json eh ev.inputs ev.messages
          = runHandler L as_json eh ev.inputs (pre ++ post)) := by
  refine ⟨runHandler_length L as_json eh ev.inputs ev.messages,
          fun m => dropped_iff L as_json eh ev.inputs m, ?_⟩
  rintro pre m post hsplit hdrop
  rw [hsplit]
  exact runHandler_drop_middle L as_json eh ev.inputs pre post m hdrop

theorem claim_C1_witness :
    runHandler L0 false ehDrop (some []) [msgHi]
      = runHandler L0 false ehDrop (some []) ([] ++ []) :=
  (claim_C1 L0 false ehDrop ⟨[msgHi], some []⟩).2.2 [] msgHi [] rfl (by rfl)

/-- C2: a failing message and a succeeding message of the same batch
both land in their respective sequences: per-message errors never abort
the siblings. -/
theorem claim_C2 (L : Libs) (as_json : Bool) (eh : Transform) (ev : Event)
    (m n : Message) (f : FailedMessage) (om : OutMessage)
    (hm : m ∈ ev.messages)
    (hf : processMessage L as_json eh ev.inputs m = .failure f)
    (hn : n ∈ ev.messages)
    (hs : processMessage L as_json eh ev.inputs n = .success om) :
    f ∈ (runHandler L as_json eh ev.inputs ev.messages).failed_messages
    ∧ om ∈ (runHandler L as_json eh ev.inputs ev.messages).messages :=
  ⟨mem_failed_of_failure L as_json eh ev.inputs ev.messages m f hm hf,
   mem_messages_of_success L as_json eh ev.inputs ev.messages n om hn hs⟩

theorem claim_C2_witness :
    (⟨hdr0, "YQ==", "boom"⟩ : FailedMessage)
        ∈ (runHandler L0 false ehSel (some []) [msgHi, msgA]).failed_messages
    ∧ (⟨[], [104, 105]⟩ : OutMessage)
        ∈ (runHandler L0 false ehSel (some []) [msgHi, msgA]).messages :=
  claim_C2 L0 false ehSel ⟨[msgHi, msgA], some []⟩ msgA msgHi
    ⟨hdr0, "YQ==", "boom"⟩ ⟨[], [104, 105]⟩
    (by simp) (by rfl) (by simp) (by rfl)

/-- C4: the success sequence is exactly the in-order selection of the
succeeding messages, and the failure sequence is exactly the in-order
selection of the failing messages: both preserve input order and are
independent of each other. -/
theorem claim_C4 (L : Libs) (as_json : Bool) (eh : Transform) (ev : Event) :
    (runHandler L as_json eh ev.inputs ev.messages).messages
      = ev.messages.filterMap
          (fun m => successPart (processMessage L as_json eh ev.inputs m))
    ∧ (runHandler L as_json eh ev.inputs ev.messages).failed_messages
      = ev.messages.filterMap
          (fun m => failurePart (processMessage L as_json eh ev.inputs m)) :=
  ⟨runHandler_messages L as_json eh ev.inputs ev.messages,
   runHandler_failed L as_json eh ev.inputs ev.messages⟩

/-- C5: a payload that is not valid base64 makes its message fail with
the original payload kept and a non-empty error; a one-message batch
with such a payload yields one failure entry and no successes. -/
theorem claim_C5 (L : Libs) (as_json : Bool) (eh : Transform)
    (inp : Option (List (String × String))) (msg : Message)
    (hb : b64decode msg.payload = none) :
    processMessage L as_json eh inp msg
        = .failure ⟨msg.headers, msg.payload, base64ErrMsg⟩
    ∧ base64ErrMsg ≠ ""
    ∧ runHandler L as_json eh inp [msg]
        = ⟨[], [⟨msg.headers, msg.payload, base64ErrMsg⟩]⟩ := by
  have hd : decodePayload L as_json msg.payload = .error base64ErrMsg := by
    unfold decodePayload
    rw [hb]
  have h1 := processMessage_decodeErr L as_json eh inp msg base64ErrMsg hd
  refine ⟨h1, by decide, ?_⟩
  simp only [runHandler, h1]

theorem claim_C5_witness :
    processMessage L0 false ehBytes (some []) msgBad
        = .failure ⟨hdr0, "a", base64ErrMsg⟩
    ∧ base64ErrMsg ≠ ""
    ∧ runHandler L0 false ehBytes (some []) [msgBad]
        = ⟨[], [⟨hdr0, "a", base64ErrMsg⟩]⟩ :=
  claim_C5 L0 false ehBytes (some []) msgBad (by rfl)

/-- C3: a transform result pair with exactly one `None`, or components
that are not bytes and dict, is recorded as a failure entry with a
non-empty error for that message, never as a success. -/
theorem claim_C3 (L : Libs) (as_json : Bool) (eh : Transform)
    (inp0 : List (String × String)) (msg : Message) (pv pm ph : PyVal)
    (hd : decodePayload L as_json msg.payload = .ok pv)
    (he : eh pv msg.headers inp0 = .ok pm ph)
    (hbad : ¬(isBytes pm = true ∧ isDict ph = true))
    (hnn : ¬(isNone pm = true ∧ isNone ph = true)) :
    ∃ e, processMessage L as_json eh (some inp0) msg
        = .failure ⟨msg.headers, msg.payload, e⟩ ∧ e ≠ "" := by
  rw [processMessage_ok L as_json eh inp0 msg pv pm ph hd he]
  unfold classify
  rw [if_neg (by rw [Bool.and_eq_true]; exact hbad),
      if_neg (by rw [Bool.and_eq_true]; exact hnn)]
  by_cases hno : (isNone pm || isNone ph) = true
  · rw [if_pos hno]
    exact ⟨bothNoneErrMsg pm ph, rfl, bothNoneErrMsg_ne_empty pm ph⟩
  · rw [if_neg hno]
    exact ⟨wrongTypeErrMsg, rfl, by decide⟩

theorem claim_C3_witness :
    ∃ e, processMessage L0 false ehHalfNone (some []) msgHi
        = .failure ⟨hdr0, "aGk=", e⟩ ∧ e ≠ "" :=
  claim_C3 L0 false ehHalfNone [] msgHi (.pyBytes [104, 105])
    (.pyBytes []) .pyNone (by rfl) (by rfl) (by decide) (by decide)

/-- C6: every failure entry carries the original headers and the
original base64 payload of the message it came from, unchanged, together
with its error string. -/
theorem claim_C6 (L : Libs) (as_json : Bool) (eh : Transform) (ev : Event)
    (f : FailedMessage)
    (hf : f ∈ (runHandler L as_json eh ev.inputs ev.messages).failed_messages) :
    ∃ m ∈ ev.messages, f.headers = m.headers ∧ f.payload = m.payload
      ∧ processMessage L as_json eh ev.inputs m = .failure f := by
  rw [runHandler_failed] at hf
  obtain ⟨m, hm, hsome⟩ := List.mem_filterMap.mp hf
  have hfail := failurePart_eq_some _ _ hsome
  obtain ⟨h1, h2⟩ := failure_fields L as_json eh ev.inputs m f hfail
  exact ⟨m, hm, h1, h2, hfail⟩

theorem claim_C6_witness :
    ∃ m ∈ [msgBad],
      (⟨hdr0, "a", base64ErrMsg⟩ : FailedMessage).headers = m.headers
      ∧ (⟨hdr0, "a", base64ErrMsg⟩ : FailedMessage).payload = m.payload
      ∧ processMessage L0 false ehBoom (some []) m
          = .failure ⟨hdr0, "a", base64ErrMsg⟩ :=
  claim_C6 L0 false ehBoom ⟨[msgBad], some []⟩ ⟨hdr0, "a", base64ErrMsg⟩
    (by rw [show (runHandler L0 false ehBoom (some []) [msgBad]).failed_messages
              = [⟨hdr0, "a", base64ErrMsg⟩] from rfl]
        exact List.mem_singleton_self _)

/-- C7: when the aggregated result cannot be serialized the call returns
the descriptive error string and no envelope at all; otherwise it
returns the envelope holding both sequences.  The two outcomes are
distinct constructors. -/
theorem claim_C7 (L : Libs) (as_json use_async : Bool) (eh : Transform)
    (ev : Event) :
    (envelopeSerializable (runHandler L as_json eh ev.inputs ev.messages)
        = false →
      create_function L as_json use_async eh ev = .encodeFailure jsonDumpErrMsg
      ∧ jsonDumpErrMsg ≠ ""
      ∧ ∀ ms fs, create_function L as_json use_async eh ev ≠ .envelope ms fs)
    ∧ (envelopeSerializable (runHandler L as_json eh ev.inputs ev.messages)
        = true →
      create_function L as_json use_async eh ev
        = .envelope
            ((runHandler L as_json eh ev.inputs ev.messages).messages.map
              (fun m => ⟨m.headers, b64encode m.payload⟩))
            (runHandler L as_json eh ev.inputs ev.messages).failed_messages) := by
  constructor
  · intro h
    have hc := create_function_noser L as_json use_async eh ev h
    refine ⟨hc, by decide, fun ms fs hcontra => ?_⟩
    rw [hc] at hcontra
    cases hcontra
  · exact create_function_ser L as_json use_async eh ev

theorem claim_C7_witness :
    create_function L0 false false ehBadHdr ⟨[msgHi], some []⟩
        = .encodeFailure jsonDumpErrMsg
    ∧ create_function L0 false false ehBytes ⟨[msgHi], some []⟩
        = .envelope [⟨[], "aGk="⟩] [] :=
  ⟨((claim_C7 L0 false false ehBadHdr ⟨[msgHi], some []⟩).1 (by rfl)).1,
   ((claim_C7 L0 false false ehBytes ⟨[msgHi], some []⟩).2 (by rfl)).trans
     (by rfl)⟩

/-- A `Libs` whose UTF-8 and JSON steps both succeed. -/
def LOk : Libs :=
  ⟨fun _ => .ok "parsed", fun _ => .ok (.pyDict [("j", .pyStr "v")])⟩

/-- A `Libs` whose UTF-8 step raises. -/
def LBadUtf : Libs :=
  ⟨fun _ => .error "utf8 boom", fun _ => .error "unused"⟩

/-- A `Libs` whose JSON step raises. -/
def LBadJson : Libs :=
  ⟨fun _ => .ok "parsed", fun _ => .error "json boom"⟩

/-- C8: with `as_json` set, after base64 decoding the bytes are decoded
as UTF-8 and parsed as JSON, the parsed value (not the bytes) is what
the transform receives, and a UTF-8 or JSON failure becomes that
message's failure entry carrying the raised error. -/
theorem claim_C8 (L : Libs) (eh : Transform) (inp0 : List (String × String))
    (msg : Message) (bs : List Nat)
    (hb : b64decode msg.payload = some bs) :
    (∀ s v, L.utf8Decode bs = .ok s → L.jsonLoads s = .ok v →
      processMessage L true eh (some inp0) msg
        = match eh v msg.headers inp0 with
          | .exn e => .failure ⟨msg.headers, msg.payload, e⟩
          | .ok pm ph => classify msg pm ph)
    ∧ (∀ e, L.utf8Decode bs = .error e →
      processMessage L true eh (some inp0) msg
        = .failure ⟨msg.headers, msg.payload, e⟩)
    ∧ (∀ s e, L.utf8Decode bs = .ok s → L.jsonLoads s = .error e →
      processMessage L true eh (some inp0) msg
        = .failure ⟨msg.headers, msg.payload, e⟩) := by
  refine ⟨fun s v hu hj => ?_, fun e hu => ?_, fun s e hu hj => ?_⟩
  · have hd : decodePayload L true msg.payload = .ok v := by
      unfold decodePayload
      rw [hb]
      simp [hu, hj]
    rcases he : eh v msg.headers inp0 with ⟨pm, ph⟩ | e
    · exact processMessage_ok L true eh inp0 msg v pm ph hd he
    · exact processMessage_exn L true eh inp0 msg v e hd he
  · have hd : decodePayload L true msg.payload = .error e := by
      unfold decodePayload
      rw [hb]
      simp [hu]
    exact processMessage_decodeErr L true eh (some inp0) msg e hd
  · have hd : decodePayload L true msg.payload = .error e := by
      unfold decodePayload
      rw [hb]
      simp [hu, hj]
    exact processMessage_decodeErr L true eh (some inp0) msg e hd

theorem claim_C8_witness :
    processMessage LOk true ehBoom (some []) msgHi
        = .failure ⟨hdr0, "aGk=", "boom"⟩
    ∧ processMessage LBadUtf true ehBoom (some []) msgHi
        = .failure ⟨hdr0, "aGk=", "utf8 boom"⟩
    ∧ processMessage LBadJson true ehBoom (some []) msgHi
        = .failure ⟨hdr0, "aGk=", "json boom"⟩ :=
  ⟨(claim_C8 LOk ehBoom [] msgHi [104, 105] (by rfl)).1
      "parsed" (.pyDict [("j", .pyStr "v")]) rfl rfl,
   (claim_C8 LBadUtf ehBoom [] msgHi [104, 105] (by rfl)).2.1
      "utf8 boom" rfl,
   (claim_C8 LBadJson ehBoom [] msgHi [104, 105] (by rfl)).2.2
      "parsed" "json boom" rfl rfl⟩

/-- C9: every entry of the output envelope's success sequence comes from
a message whose transform returned exactly these bytes, the entry's
payload field is their base64 rendering, and decoding it gives back
exactly those bytes (no re-encoding loss).  The byte-range hypothesis is
implicit for Python `bytes`. -/
theorem claim_C9 (L : Libs) (as_json use_async : Bool) (eh : Transform)
    (ev : Event) (ms : List EnvMessage) (fs : List FailedMessage)
    (em : EnvMessage)
    (henv : create_function L as_json use_async eh ev = .envelope ms fs)
    (hem : em ∈ ms) :
    ∃ om ∈ (runHandler L as_json eh ev.inputs ev.messages).messages,
      em.headers = om.headers ∧ em.payload = b64encode om.payload
      ∧ (∃ m ∈ ev.messages, ∃ pv inp0, ev.inputs = some inp0
           ∧ decodePayload L as_json m.payload = .ok pv
           ∧ eh pv m.headers inp0
               = .ok (.pyBytes om.payload) (.pyDict om.headers))
      ∧ ((∀ b ∈ om.payload, b < 256) → b64decode em.payload = some om.payload) := by
  cases hser : envelopeSerializable (runHandler L as_json eh ev.inputs ev.messages) with
  | false =>
    rw [create_function_noser L as_json use_async eh ev hser] at henv
    cases henv
  | true =>
    rw [create_function_ser L as_json use_async eh ev hser] at henv
    cases henv
    obtain ⟨om, hom, hmap⟩ := List.mem_map.mp hem
    obtain ⟨m, hm, hsome⟩ := List.mem_filterMap.mp
      (by rw [← runHandler_messages]; exact hom)
    have hsucc := successPart_eq_some _ _ hsome
    obtain ⟨pv, inp0, hd, hinp, he⟩ :=
      success_fields L as_json eh ev.inputs m om hsucc
    refine ⟨om, hom, ?_, ?_, ⟨m, hm, pv, inp0, hinp, hd, he⟩, ?_⟩
    · rw [← hmap]
    · rw [← hmap]
    · intro hrange
      rw [← hmap]
      exact b64_roundtrip om.payload hrange

theorem claim_C9_witness :
    ∃ om ∈ (runHandler L0 false ehBytes (some []) [msgHi]).messages,
      (⟨[], "aGk="⟩ : EnvMessage).headers = om.headers
      ∧ (⟨[], "aGk="⟩ : EnvMessage).payload = b64encode om.payload
      ∧ (∃ m ∈ [msgHi], ∃ pv inp0, (some [] : Option (List (String × String))) = some inp0
           ∧ decodePayload L0 false m.payload = .ok pv
           ∧ ehBytes pv m.headers inp0
               = .ok (.pyBytes om.payload) (.pyDict om.headers))
      ∧ ((∀ b ∈ om.payload, b < 256) →
          b64decode (⟨[], "aGk="⟩ : EnvMessage).payload = some om.payload) :=
  claim_C9 L0 false false ehBytes ⟨[msgHi], some []⟩ [⟨[], "aGk="⟩] []
    ⟨[], "aGk="⟩ (by rfl) (List.mem_singleton_self _)

/-- C10 counterexample: with the `inputs` key missing and a payload that
is not valid base64, the failure entry records the base64 decode error,
not the `inputs` lookup error — the payload decode happens before the
lookup — so not every entry carries the lookup error as the claim
states. -/
theorem claim_C10_counterexample :
    (runHandler L0 false ehBoom none [msgBad]).failed_messages
      = [⟨hdr0, "a", base64ErrMsg⟩]
    ∧ base64ErrMsg ≠ keyErrMsg :=
  ⟨rfl, by decide⟩

/-- C10 (amended): an event lacking the `inputs` key with a non-empty
message list does not fail as a whole: every message becomes a failure
entry — with the lookup error as its error string when its payload
decoded, otherwise with that decode error — no message succeeds, and a
normal JSON envelope is still returned. -/
theorem claim_C10 (L : Libs) (as_json use_async : Bool) (eh : Transform)
    (ev : Event) (h : ev.inputs = none) (hne : ev.messages ≠ []) :
    (∀ m ∈ ev.messages,
        processMessage L as_json eh ev.inputs m
          = match decodePayload L as_json m.payload with
            | .error e => .failure ⟨m.headers, m.payload, e⟩
            | .ok _ => .failure ⟨m.headers, m.payload, keyErrMsg⟩)
    ∧ (runHandler L as_json eh ev.inputs ev.messages).messages = []
    ∧ (runHandler L as_json eh ev.inputs ev.messages).failed_messages.length
        = ev.messages.length
    ∧ create_function L as_json use_async eh ev
        = .envelope []
            (runHandler L as_json eh ev.inputs ev.messages).failed_messages := by
  have hper : ∀ m, processMessage L as_json eh ev.inputs m
      = match decodePayload L as_json m.payload with
        | .error e => .failure ⟨m.headers, m.payload, e⟩
        | .ok _ => .failure ⟨m.headers, m.payload, keyErrMsg⟩ := by
    intro m
    rw [h]
    rcases hd : decodePayload L as_json m.payload with e | pv
    · rw [processMessage_decodeErr L as_json eh none m e hd]
    · rw [processMessage_noInputs L as_json eh m pv hd]
  have hfail : ∀ m, ∃ f, processMessage L as_json eh ev.inputs m = .failure f := by
    intro m
    rw [hper m]
    rcases decodePayload L as_json m.payload with e | pv
    · exact ⟨_, rfl⟩
    · exact ⟨_, rfl⟩
  have hmsgs : (runHandler L as_json eh ev.inputs ev.messages).messages = [] := by
    rw [runHandler_messages, List.filterMap_eq_nil_iff]
    intro m hm
    obtain ⟨f, hf⟩ := hfail m
    rw [hf]
    rfl
  have hdrop0 : droppedCount L as_json eh ev.inputs ev.messages = 0 := by
    unfold droppedCount
    rw [List.countP_eq_zero]
    intro m hm
    obtain ⟨f, hf⟩ := hfail m
    rw [hf]
    simp [isDropped]
  have hlen := runHandler_length L as_json eh ev.inputs ev.messages
  rw [hmsgs, List.length_nil, hdrop0] at hlen
  have hser : envelopeSerializable
      (runHandler L as_json eh ev.inputs ev.messages) = true := by
    unfold envelopeSerializable
    rw [hmsgs]
    rfl
  refine ⟨fun m _ => hper m, hmsgs, by omega, ?_⟩
  rw [create_function_ser L as_json use_async eh ev hser, hmsgs]
  rfl

theorem claim_C10_witness :
    (runHandler L0 false ehBoom none [msgHi]).failed_messages.length = 1
    ∧ create_function L0 false false ehBoom ⟨[msgHi], none⟩
        = .envelope []
            (runHandler L0 false ehBoom none [msgHi]).failed_messages :=
  ⟨(claim_C10 L0 false false ehBoom ⟨[msgHi], none⟩ rfl (by simp)).2.2.1,
   (claim_C10 L0 false false ehBoom ⟨[msgHi], none⟩ rfl (by simp)).2.2.2⟩

end Memphis
